import Mathlib

/-!
Shallow embedding of the camscrub downloader (src/main.rs).

The program paginates a remote image listing ("list images older than the
cursor"), normalizes the returned ids, streams them into a bounded channel
consumed by a fixed pool of four workers, and downloads each image with a
conditional fetch.  The embedding below translates the pagination loop
(`run`, the `loop { ... }` over listing responses), the worker receive loop,
the shutdown sentinels, the id normalization, the URL/path construction,
and the `download` function into pure Lean functions.  Network and
filesystem effects are made explicit: a listing response is
`Except String (List String)` (transport/parse failure or a page of ids),
a download response carries its status code and a list of body chunks, and
the destination file is a `List Nat` of bytes.
-/

deriving instance DecidableEq for Except

namespace Camscrub

/-- Byte-level view of the fixed listing suffix `"_la.jpg"` that the listing
loop strips from every id (`img.strip_suffix("_la.jpg")`). -/
def laSuffix : List Char := "_la.jpg".data

/-- Normalization applied to every id of a listing page, translating
`img.strip_suffix("_la.jpg").map(to_owned).unwrap_or(img)`: if the id ends
with `"_la.jpg"` the suffix is removed, otherwise the id is returned
unchanged. -/
def normalizeId (s : String) : String :=
  if s.data.drop (s.data.length - laSuffix.length) = laSuffix then
    String.mk (s.data.take (s.data.length - laSuffix.length))
  else s

/-- Cursor computed from one listing page, translating
`img_oldest = img_urls.first().cloned().unwrap_or_default()` where
`img_urls` is the normalized page: the first normalized id, or the empty
string when the page is empty.  Per the listing contract the first id of a
page is the oldest id returned. -/
def newCursor (thumbs : List String) : String :=
  (thumbs.map normalizeId).headD ""

/-- Result of the pagination loop in `run`. -/
inductive LoopResult where
  /-- The loop hit `break`: a page's computed cursor was empty. -/
  | terminated
  /-- A listing request failed to send or parse; `?` aborts `run`. -/
  | fatal (e : String)
  /-- The supplied response list was exhausted with the loop still running. -/
  | pending
deriving DecidableEq

/-- The pagination `loop` of `run`, driven by the list of responses the
server gives to successive requests.  `cursor` is the current value of
`img_oldest`, sent as the `img` query parameter of the next request.
Returns the cursor sent with each issued request (in order), the ids
dispatched to the worker channel (in order), and how the loop ended.
Each iteration sends one request, normalizes the page, updates the cursor
to the page's first normalized id, dispatches every id of the page, and
breaks if the new cursor is empty. -/
def runLoop (cursor : String) :
    List (Except String (List String)) → List String × List String × LoopResult
  | [] => ([cursor], [], LoopResult.pending)
  | Except.error e :: _ => ([cursor], [], LoopResult.fatal e)
  | Except.ok thumbs :: rest =>
    let ids := thumbs.map normalizeId
    if newCursor thumbs = "" then
      ([cursor], ids, LoopResult.terminated)
    else
      let r := runLoop (newCursor thumbs) rest
      (cursor :: r.1, ids ++ r.2.1, r.2.2)

/-- First fatal listing failure the loop can reach: the first response that
is an error, unless a page with an empty computed cursor comes first. -/
def firstFatal : List (Except String (List String)) → Option String
  | [] => none
  | Except.error e :: _ => some e
  | Except.ok thumbs :: rest =>
    if newCursor thumbs = "" then none else firstFatal rest

/-- Result of one `download` call, translating `enum Status`. -/
inductive Status where
  | Downloaded
  | Exists
deriving DecidableEq

/-- Per-item outcome as the worker reports it: progress increment plus a
`loaded ...` line on `Status::Downloaded`, progress increment only on
`Status::Exists`, a `failed to download ...` line on error. -/
inductive Outcome where
  | downloaded
  | unchanged
  | failed (e : String)
deriving DecidableEq

/-- Mapping of a download result to the worker's reported outcome. -/
def toOutcome : Except String Status → Outcome
  | Except.ok Status.Downloaded => Outcome.downloaded
  | Except.ok Status.Exists => Outcome.unchanged
  | Except.error e => Outcome.failed e

/-- One worker's receive loop, translating
`while let Ok(img) = img_rx.recv().await { if img.is_empty() { break; } ... }`
over the sequence of messages this worker receives from the channel:
stop on channel close (end of list) or on the empty sentinel; otherwise
download (abstracted by `dl`), report the outcome, and continue - also
after a failed download. -/
def workerLoop (dl : String → Except String Status) : List String → List Outcome
  | [] => []
  | img :: rest =>
    if img = "" then [] else toOutcome (dl img) :: workerLoop dl rest

/-- Worker ids, translating `let task_range = 0..4`. -/
def taskRange : List Nat := List.range 4

/-- Fixed size of the worker pool: one task is spawned per element of
`task_range`. -/
def workerCount : Nat := taskRange.length

/-- Shutdown values sent after pagination, translating
`for id in task_range { img_tx.send(Default::default()).await.ok(); }`:
one empty string per element of `task_range`. -/
def sentinels : List String := taskRange.map (fun _ => "")

/-- A download response: HTTP status code, declared `Content-Length`, and
the body as a list of chunks, each either received bytes or a stream
error. -/
structure Response where
  status : Nat
  contentLength : Option Nat
  chunks : List (Except String (List Nat))

/-- Translation of reqwest's `Response::error_for_status`, used by
`download`: an error exactly for client-error (400-499) and server-error
(500-599) status codes. -/
def errorForStatus (s : Nat) : Bool :=
  decide (400 ≤ s) && decide (s ≤ 599)

/-- Success statuses (2xx), reqwest's `StatusCode::is_success`; used to
state which statuses count as "non-success". -/
def isSuccess (s : Nat) : Bool :=
  decide (200 ≤ s) && decide (s ≤ 299)

/-- The body-streaming loop of `download`
(`while let Some(chunk) = stream.next().await { file.write_all_buf(...)? }`):
append each chunk to the bytes written so far, stopping at the first chunk
error.  Returns the loop's result and the bytes written up to that point. -/
def streamBody : List Nat → List (Except String (List Nat)) → Except String Unit × List Nat
  | acc, [] => (Except.ok (), acc)
  | acc, Except.error e :: _ => (Except.error e, acc)
  | acc, Except.ok c :: rest => streamBody (acc ++ c) rest

/-- Contents of the destination file after `File::create` (truncate to
empty), the optional `file.set_len(content_length)` pre-allocation (zero
padding), and writing `written` bytes from the start. -/
def fileBytes (written : List Nat) : Option Nat → List Nat
  | none => written
  | some len => written ++ List.replicate (len - written.length) 0

/-- Result of `download` together with its filesystem effect: the final
contents of the destination path (`none` = no file). -/
structure DownloadEffect where
  result : Except String Status
  file : Option (List Nat)
deriving DecidableEq

/-- The `download` function.  `resp` is the outcome of sending the request
(`Except.error` = transport failure or timeout); `prior` is the current
contents of the destination path, which the conditional `If-Modified-Since`
header is derived from.  Control flow translated from the source:
`error_for_status` fails on 4xx/5xx before anything is written; a 304
returns `Status::Exists` with nothing written; otherwise the file is
created (truncated), optionally pre-allocated to `Content-Length`, and the
body is streamed into it, a stream or write error aborting the item with
the partial file left in place.  Setting the modification time afterwards
is best-effort (`.ok()`) and has no bearing on the result. -/
def download (resp : Except String Response) (prior : Option (List Nat)) : DownloadEffect :=
  match resp with
  | Except.error e => ⟨Except.error e, prior⟩
  | Except.ok r =>
    if errorForStatus r.status then ⟨Except.error "failed to download", prior⟩
    else if r.status = 304 then ⟨Except.ok Status.Exists, prior⟩
    else
      let sb := streamBody [] r.chunks
      ⟨(match sb.1 with
        | Except.ok _ => Except.ok Status.Downloaded
        | Except.error e => Except.error e),
       some (fileBytes sb.2 r.contentLength)⟩

/-- Remote file name for one id, translating
`let img_path = img.clone() + "_hu.jpg"`. -/
def imgPath (img : String) : String := img ++ "_hu.jpg"

/-- Splitting at every `'/'`, translating Rust's `str::split('/')`:
`""` gives `[""]`, separators at the ends and doubled separators give
empty segments. -/
def splitSlash : List Char → List (List Char)
  | [] => [[]]
  | c :: cs =>
    if c = '/' then [] :: splitSlash cs
    else
      match splitSlash cs with
      | [] => [[c]]
      | s :: rest => (c :: s) :: rest

/-- Path segments of the download URL for one id, translating
`url.path_segments_mut().unwrap().extend(img_path.split('/'))`: the base
URL's segments followed by the slash-split segments of `img + "_hu.jpg"`. -/
def urlSegments (base : List (List Char)) (img : String) : List (List Char) :=
  base ++ splitSlash (imgPath img).data

/-- A filesystem path as the OS interprets it: whether it is rooted at
`/`, and its interpreted components in order. -/
structure FsPath where
  absolute : Bool
  components : List (List Char)
deriving DecidableEq

/-- Interpreted components of a path fragment that follows other
components (or the root), as Rust's `Path::components` yields them: the
slash-split segments with empty segments (doubled or trailing
separators) and `"."` segments skipped; `".."` segments are kept
literally, as `PathBuf` never resolves them. -/
def pathComponents (s : List Char) : List (List Char) :=
  (splitSlash s).filter (fun seg => !(seg.isEmpty) && !(seg == ['.']))

/-- Rust's `PathBuf::push`: if the pushed fragment is absolute (on Unix:
begins with `'/'`), it replaces the current path entirely; otherwise its
components are appended to the current path.  The download directory is
always a non-empty path, so the fragment's segments are interpreted
mid-path. -/
def pathPush (p : FsPath) (s : List Char) : FsPath :=
  if s.head? = some '/' then ⟨true, pathComponents s⟩
  else ⟨p.absolute, p.components ++ pathComponents s⟩

/-- The local destination path, translating `path.push(&img_path)` on a
clone of the download directory. -/
def localPath (dir : FsPath) (img : String) : FsPath :=
  pathPush dir (imgPath img).data

/-- Directory that `download` creates recursively before writing,
translating `fs::create_dir_all(path.parent().unwrap())`: the destination
path without its final component (the file name). -/
def dirsCreated (dir : FsPath) (img : String) : FsPath :=
  ⟨(localPath dir img).absolute, (localPath dir img).components.dropLast⟩

/-! Helper lemmas. -/

theorem normalizeId_append_suffix (t : String) : normalizeId (t ++ "_la.jpg") = t := by
  obtain ⟨d⟩ := t
  show normalizeId ⟨d ++ laSuffix⟩ = ⟨d⟩
  unfold normalizeId
  have hlen : (d ++ laSuffix).length - laSuffix.length = d.length := by
    simp [List.length_append]
  show (if (d ++ laSuffix).drop ((d ++ laSuffix).length - laSuffix.length) = laSuffix
      then String.mk ((d ++ laSuffix).take ((d ++ laSuffix).length - laSuffix.length))
      else ⟨d ++ laSuffix⟩) = ⟨d⟩
  rw [hlen, List.drop_left, if_pos rfl, List.take_left]

theorem normalizeId_of_no_suffix (s : String) (h : ¬ ∃ t : String, s = t ++ "_la.jpg") :
    normalizeId s = s := by
  unfold normalizeId
  rw [if_neg]
  intro hc
  apply h
  refine ⟨String.mk (s.data.take (s.data.length - laSuffix.length)), ?_⟩
  apply String.ext
  show s.data = (String.mk (s.data.take (s.data.length - laSuffix.length)) ++ ⟨laSuffix⟩).data
  rw [String.data_append]
  show s.data = s.data.take (s.data.length - laSuffix.length) ++ laSuffix
  conv_lhs => rw [← List.take_append_drop (s.data.length - laSuffix.length) s.data]
  rw [hc]

theorem runLoop_cons_ok_ne (c : String) (p : List String)
    (rest : List (Except String (List String))) (h : newCursor p ≠ "") :
    runLoop c (Except.ok p :: rest) =
      (c :: (runLoop (newCursor p) rest).1,
       p.map normalizeId ++ (runLoop (newCursor p) rest).2.1,
       (runLoop (newCursor p) rest).2.2) := by
  simp [runLoop, h]

theorem runLoop_ok_spec (c : String) (ps : List (List String)) (hne : ps ≠ [])
    (hmid : ∀ p ∈ ps.dropLast, newCursor p ≠ "")
    (hlast : newCursor (ps.getLast hne) = "") :
    runLoop c (ps.map Except.ok) =
      (c :: ps.dropLast.map newCursor,
       (ps.map (fun p => p.map normalizeId)).flatten,
       LoopResult.terminated) := by
  induction ps generalizing c with
  | nil => exact absurd rfl hne
  | cons p ps' ih =>
    cases ps' with
    | nil =>
      have h : newCursor p = "" := by simpa using hlast
      simp [runLoop, h]
    | cons q ps'' =>
      have hp : newCursor p ≠ "" := hmid p (by simp [List.dropLast])
      have hne' : q :: ps'' ≠ [] := by simp
      have hmid' : ∀ r ∈ (q :: ps'').dropLast, newCursor r ≠ "" := by
        intro r hr
        refine hmid r ?_
        simp only [List.dropLast, List.mem_cons]
        exact Or.inr hr
      have hlast' : newCursor ((q :: ps'').getLast hne') = "" := by
        rw [← List.getLast_cons hne']
        exact hlast
      have hrec := ih (newCursor p) hne' hmid' hlast'
      rw [List.map_cons, runLoop_cons_ok_ne c p _ hp, hrec]
      simp [List.dropLast]

theorem runLoop_fatal_iff (rs : List (Except String (List String))) :
    ∀ c e : String, (runLoop c rs).2.2 = LoopResult.fatal e ↔ firstFatal rs = some e := by
  induction rs with
  | nil => intro c e; simp [runLoop, firstFatal]
  | cons r rest ih =>
    intro c e
    cases r with
    | error e' => simp [runLoop, firstFatal]
    | ok thumbs =>
      by_cases h : newCursor thumbs = ""
      · simp [runLoop, firstFatal, h]
      · simp only [runLoop, firstFatal, if_neg h]
        exact ih (newCursor thumbs) e

theorem workerLoop_length (dl : String → Except String Status) (msgs : List String) :
    (workerLoop dl msgs).length = (msgs.takeWhile (fun s => !(s == ""))).length := by
  induction msgs with
  | nil => rfl
  | cons m rest ih =>
    by_cases h : m = ""
    · simp [workerLoop, h, List.takeWhile_cons]
    · simp [workerLoop, h, List.takeWhile_cons, ih]

theorem splitSlash_ne_nil (l : List Char) : splitSlash l ≠ [] := by
  cases l with
  | nil => simp [splitSlash]
  | cons c cs =>
    unfold splitSlash
    by_cases h : c = '/'
    · simp [h]
    · simp only [if_neg h]
      cases hsc : splitSlash cs <;> simp

theorem splitSlash_no_slash (l : List Char) (h : ('/' : Char) ∉ l) : splitSlash l = [l] := by
  induction l with
  | nil => rfl
  | cons c cs ih =>
    have hc : ¬ c = '/' := by rintro rfl; exact h (by simp)
    have hcs : ('/' : Char) ∉ cs := fun hm => h (List.mem_cons_of_mem _ hm)
    unfold splitSlash
    rw [if_neg hc, ih hcs]

theorem two_le_splitSlash_length (l : List Char) (h : ('/' : Char) ∈ l) :
    2 ≤ (splitSlash l).length := by
  induction l with
  | nil => simp at h
  | cons c cs ih =>
    unfold splitSlash
    by_cases hc : c = '/'
    · rw [if_pos hc]
      have hpos : 0 < (splitSlash cs).length :=
        List.length_pos.mpr (splitSlash_ne_nil cs)
      simp only [List.length_cons]
      omega
    · have hcs : ('/' : Char) ∈ cs := by
        rcases List.mem_cons.mp h with h1 | h2
        · exact absurd h1.symm hc
        · exact h2
      rw [if_neg hc]
      rcases hsc : splitSlash cs with _ | ⟨s, rest⟩
      · exact absurd hsc (splitSlash_ne_nil cs)
      · have h2 := ih hcs
        rw [hsc] at h2
        simpa using h2

theorem pathComponents_append_ne_nil (l : List Char) :
    pathComponents (l ++ "_hu.jpg".data) ≠ [] := by
  induction l with
  | nil => decide
  | cons c cs ih =>
    show pathComponents (c :: (cs ++ "_hu.jpg".data)) ≠ []
    by_cases hc : c = '/'
    · have hspl : splitSlash (c :: (cs ++ "_hu.jpg".data))
          = [] :: splitSlash (cs ++ "_hu.jpg".data) := by
        simp only [splitSlash]
        rw [if_pos hc]
      unfold pathComponents at ih ⊢
      rw [hspl, List.filter_cons]
      simpa using ih
    · rcases hsc : splitSlash (cs ++ "_hu.jpg".data) with _ | ⟨s, rest⟩
      · exact absurd hsc (splitSlash_ne_nil _)
      · have hspl : splitSlash (c :: (cs ++ "_hu.jpg".data)) = (c :: s) :: rest := by
          unfold splitSlash
          rw [if_neg hc, hsc]
        unfold pathComponents at ih ⊢
        rw [hspl]
        rw [hsc] at ih
        intro hnil
        rw [List.filter_eq_nil_iff] at hnil
        apply ih
        rw [List.filter_eq_nil_iff]
        intro a ha
        rcases List.mem_cons.mp ha with rfl | har
        · have hcs := hnil (c :: a) (List.mem_cons_self _ _)
          have heq : c :: a = ['.'] := by
            cases hbe : ((c :: a) == ['.']) with
            | true => exact eq_of_beq hbe
            | false => exact absurd (by simp [List.isEmpty_cons, hbe]) hcs
          have ha0 : a = [] := by
            have ht := congrArg List.tail heq
            simpa using ht
          rw [ha0]
          decide
        · exact hnil a (List.mem_cons_of_mem _ har)

/-! Claim theorems. -/

/-- C1: on a run whose pages all have a non-empty computed cursor except the
last, the cursor sent with each listing request after the first equals the
oldest (first) normalized id of the previous page, the cursor of an empty
page is empty, and the loop terminates exactly when the new cursor is
empty: it ends in `terminated` at the empty-cursor page, and at every
page with a non-empty cursor it continues into the next request instead. -/
theorem cursor_tracks_previous_page (c : String) (ps : List (List String)) (hne : ps ≠ [])
    (hmid : ∀ p ∈ ps.dropLast, newCursor p ≠ "")
    (hlast : newCursor (ps.getLast hne) = "") :
    (runLoop c (ps.map Except.ok)).1 = c :: ps.dropLast.map newCursor ∧
    (runLoop c (ps.map Except.ok)).2.2 = LoopResult.terminated ∧
    newCursor [] = "" ∧
    (∀ (c' : String) (p : List String) (rest : List (Except String (List String))),
      newCursor p ≠ "" →
      (runLoop c' (Except.ok p :: rest)).1 = c' :: (runLoop (newCursor p) rest).1) := by
  rw [runLoop_ok_spec c ps hne hmid hlast]
  refine ⟨rfl, rfl, rfl, fun c' p rest h => ?_⟩
  rw [runLoop_cons_ok_ne c' p rest h]

/-- Witness for C1 at the concrete run `[["b", "a"], []]`: the second
request is sent with cursor `"b"`, the first normalized id of page one. -/
theorem cursor_tracks_previous_page_witness :
    (runLoop "" (List.map Except.ok [["b", "a"], []])).1 = ["", "b"] := by
  have h := cursor_tracks_previous_page "" [["b", "a"], []] (by decide)
    (by decide) (by decide)
  rw [h.1]
  decide

/-- C2 counterexample: status 300 is not a success status and is not 304,
yet `download` does not fail there - `error_for_status` only fails on
400-599, so the body is written and the result is `Downloaded`. -/
theorem download_status300_not_failure :
    isSuccess 300 = false ∧ (300 : Nat) ≠ 304 ∧
    download (Except.ok ⟨300, none, [Except.ok [1]]⟩) none
      = ⟨Except.ok Status.Downloaded, some [1]⟩ := by decide

/-- C2 amended: a 304 response yields `Exists` (unchanged) with the file
untouched and no error, and every client-error or server-error status
(400-599) yields a failure with the file untouched; statuses outside
400-599 other than 304 are not failures. -/
theorem download_status_dichotomy (r : Response) (prior : Option (List Nat)) :
    (r.status = 304 → download (Except.ok r) prior = ⟨Except.ok Status.Exists, prior⟩) ∧
    (400 ≤ r.status → r.status ≤ 599 →
      download (Except.ok r) prior = ⟨Except.error "failed to download", prior⟩) := by
  constructor
  · intro h
    have hefs : errorForStatus 304 = false := by decide
    simp [download, hefs, h]
  · intro h1 h2
    have hefs : errorForStatus r.status = true := by
      simp only [errorForStatus, Bool.and_eq_true, decide_eq_true_eq]
      exact ⟨h1, h2⟩
    simp [download, hefs]

/-- Witness for the amended C2 at statuses 304 and 404. -/
theorem download_status_dichotomy_witness :
    download (Except.ok ⟨304, none, []⟩) (some [7]) = ⟨Except.ok Status.Exists, some [7]⟩ ∧
    download (Except.ok ⟨404, none, []⟩) none = ⟨Except.error "failed to download", none⟩ :=
  ⟨(download_status_dichotomy ⟨304, none, []⟩ (some [7])).1 rfl,
   (download_status_dichotomy ⟨404, none, []⟩ none).2 (by decide) (by decide)⟩

/-- C3: the dispatcher sends one sentinel (empty id) per worker - the
sentinel list has exactly `workerCount = 4` elements, all empty - and a
worker that receives a sentinel exits its receive loop at once, whatever
messages would follow and whatever the downloads return. -/
theorem sentinel_per_worker_and_exit :
    sentinels = List.replicate workerCount "" ∧
    workerCount = 4 ∧
    sentinels.length = workerCount ∧
    ∀ (dl : String → Except String Status) (rest : List String),
      workerLoop dl ("" :: rest) = [] := by
  refine ⟨by decide, by decide, by decide, fun dl rest => ?_⟩
  simp [workerLoop]

/-- C4 counterexample: for the page sequence `[[], []]` the final page's
computed cursor is empty, but the loop terminates after issuing one
request, not two - it stops at the first page whose cursor is empty. -/
theorem pagination_stops_at_first_empty_cursor :
    newCursor [] = "" ∧
    (runLoop "" ([Except.ok [], Except.ok []] : List (Except String (List String)))).1.length = 1 ∧
    ([Except.ok [], Except.ok []] : List (Except String (List String))).length = 2 := by
  decide

/-- C4 amended: for any finite page sequence in which the final page's
computed cursor is empty and every earlier page's computed cursor is
non-empty, the pagination loop terminates after issuing exactly as many
listing requests as there are pages. -/
theorem pagination_request_count (c : String) (ps : List (List String)) (hne : ps ≠ [])
    (hmid : ∀ p ∈ ps.dropLast, newCursor p ≠ "")
    (hlast : newCursor (ps.getLast hne) = "") :
    (runLoop c (ps.map Except.ok)).1.length = ps.length ∧
    (runLoop c (ps.map Except.ok)).2.2 = LoopResult.terminated := by
  rw [runLoop_ok_spec c ps hne hmid hlast]
  refine ⟨?_, rfl⟩
  have hpos : 0 < ps.length := List.length_pos.mpr hne
  simp only [List.length_cons, List.length_map, List.length_dropLast]
  omega

/-- Witness for the amended C4: two pages, two requests. -/
theorem pagination_request_count_witness :
    (runLoop "" (List.map Except.ok [["c", "d"], []])).1.length = 2 := by
  have h := pagination_request_count "" [["c", "d"], []] (by decide)
    (by decide) (by decide)
  rw [h.1]
  decide

/-- C5 counterexample: the overlapping pages `["a"]` and `["a"]` both
contain the id `"a"`, and the run dispatches it twice - there is no
dedup set in this program. -/
theorem overlapping_pages_duplicate_dispatch :
    (runLoop "" [Except.ok ["a"], Except.ok ["a"], Except.ok []]).2.1 = ["a", "a"] ∧
    ((runLoop "" [Except.ok ["a"], Except.ok ["a"], Except.ok []]).2.1).count "a" = 2 := by
  decide

/-- C5 amended: the run dispatches the normalized ids of every fetched page
in order with multiplicity preserved - no uniqueness-preserving set is
maintained, so an id occurring in several overlapping pages is dispatched
once per occurrence, its dispatch count being the sum of its per-page
occurrence counts. -/
theorem dispatch_preserves_multiplicity (c : String) (ps : List (List String)) (hne : ps ≠ [])
    (hmid : ∀ p ∈ ps.dropLast, newCursor p ≠ "")
    (hlast : newCursor (ps.getLast hne) = "") :
    (runLoop c (ps.map Except.ok)).2.1 = (ps.map (fun p => p.map normalizeId)).flatten ∧
    ∀ a : String, ((runLoop c (ps.map Except.ok)).2.1).count a
        = (ps.map (fun p => (p.map normalizeId).count a)).sum := by
  rw [runLoop_ok_spec c ps hne hmid hlast]
  refine ⟨rfl, fun a => ?_⟩
  rw [List.count_flatten, List.map_map]
  rfl

/-- Witness for the amended C5 at a run with pages `["a"]`, `["a"]`. -/
theorem dispatch_preserves_multiplicity_witness :
    ((runLoop "" (List.map Except.ok [["a"], ["a"], []])).2.1).count "a"
      = ([["a"], ["a"], []].map (fun p => (p.map normalizeId).count "a")).sum := by
  have h := dispatch_preserves_multiplicity "" [["a"], ["a"], []] (by decide)
    (by decide) (by decide)
  exact h.2 "a"

/-- C6: id normalization strips the fixed suffix `"_la.jpg"` when present
and leaves the id unchanged otherwise: `"123_la.jpg"` normalizes to
`"123"`, any id of the form `t ++ "_la.jpg"` normalizes to `t`, and an id
not of that form maps to itself. -/
theorem normalizeId_strips_la_suffix :
    normalizeId "123_la.jpg" = "123" ∧
    (∀ t : String, normalizeId (t ++ "_la.jpg") = t) ∧
    (∀ s : String, (¬ ∃ t : String, s = t ++ "_la.jpg") → normalizeId s = s) :=
  ⟨by decide, normalizeId_append_suffix, normalizeId_of_no_suffix⟩

/-- Witness for C6: the id `"abc"` carries no `"_la.jpg"` suffix and is
unchanged. -/
theorem normalizeId_strips_la_suffix_witness : normalizeId "abc" = "abc" :=
  normalizeId_strips_la_suffix.2.2 "abc" (by
    rintro ⟨t, ht⟩
    have h3 := congrArg (fun s : String => s.data.length) ht
    have e1 : ("abc" : String).data.length = 3 := by decide
    have e2 : ("_la.jpg" : String).data.length = 7 := by decide
    simp only [String.data_append, List.length_append, e1, e2] at h3
    omega)

/-- C7: the pagination loop ends in a fatal error exactly when a listing
request fails (transport or parse failure) before a terminal page is
reached; a worker's loop processes every message up to the first sentinel
no matter what the downloads return - it reports a failed download as a
`failed` outcome and continues with the next message. -/
theorem fatal_iff_listing_failure :
    (∀ (c : String) (rs : List (Except String (List String))) (e : String),
        (runLoop c rs).2.2 = LoopResult.fatal e ↔ firstFatal rs = some e) ∧
    (∀ (dl : String → Except String Status) (msgs : List String),
        (workerLoop dl msgs).length = (msgs.takeWhile (fun s => !(s == ""))).length) ∧
    (∀ (dl : String → Except String Status) (img : String) (rest : List String) (e : String),
        img ≠ "" → dl img = Except.error e →
        workerLoop dl (img :: rest) = Outcome.failed e :: workerLoop dl rest) := by
  refine ⟨fun c rs e => runLoop_fatal_iff rs c e, workerLoop_length, ?_⟩
  intro dl img rest e hne hdl
  simp [workerLoop, hne, hdl, toOutcome]

/-- Witness for C7: a download that always fails still lets the worker
report the failure and keep consuming messages. -/
theorem fatal_iff_listing_failure_witness :
    workerLoop (fun _ => Except.error "boom") ["x", "y"]
      = Outcome.failed "boom" :: workerLoop (fun _ => Except.error "boom") ["y"] :=
  fatal_iff_listing_failure.2.2 (fun _ => Except.error "boom") "x" ["y"] "boom"
    (by decide) rfl

/-- C8: when a page's first normalized id is empty, the loop dispatches
every id of that page (normalized, in order) and then terminates,
regardless of any further ids in the page or any further responses. -/
theorem terminal_page_ids_dispatched (c : String) (p : List String)
    (rest : List (Except String (List String))) (h : newCursor p = "") :
    runLoop c (Except.ok p :: rest) = ([c], p.map normalizeId, LoopResult.terminated) := by
  simp [runLoop, h]

/-- Witness for C8: the page `["_la.jpg", "abc"]` has first normalized id
`""`, so the loop terminates, yet both ids - including the non-empty
`"abc"` - are dispatched first. -/
theorem terminal_page_ids_dispatched_witness :
    runLoop "" [Except.ok ["_la.jpg", "abc"], Except.ok ["zzz"]]
      = ([""], ["", "abc"], LoopResult.terminated) := by
  rw [terminal_page_ids_dispatched "" ["_la.jpg", "abc"] [Except.ok ["zzz"]] (by decide)]
  decide

/-- C9: when a stream error occurs while the body is being written, after
the destination file has been created (truncated) and pre-allocated,
`download` returns that error and leaves the file holding the bytes
written so far (zero-padded to the pre-allocated length) - whatever the
file contained before, nothing is cleaned up or restored. -/
theorem download_partial_write_on_stream_error (r : Response) (prior : Option (List Nat))
    (e : String) (h1 : errorForStatus r.status = false) (h2 : r.status ≠ 304)
    (he : (streamBody [] r.chunks).1 = Except.error e) :
    download (Except.ok r) prior
      = ⟨Except.error e, some (fileBytes (streamBody [] r.chunks).2 r.contentLength)⟩ := by
  simp [download, h1, h2, he]

/-- Witness for C9: a 200 response declaring five bytes whose stream dies
after one byte leaves the file as `[7, 0, 0, 0, 0]`, destroying the prior
contents `[9, 9]`, while the call reports the error `"net"`. -/
theorem download_partial_write_on_stream_error_witness :
    download (Except.ok ⟨200, some 5, [Except.ok [7], Except.error "net"]⟩) (some [9, 9])
      = ⟨Except.error "net", some [7, 0, 0, 0, 0]⟩ := by
  rw [download_partial_write_on_stream_error ⟨200, some 5, [Except.ok [7], Except.error "net"]⟩
      (some [9, 9]) "net" (by decide) (by decide) (by decide)]
  decide

/-- C10 counterexample: the id `"/x"` contains `'/'`, but
`img_path = "/x_hu.jpg"` is absolute, so `PathBuf::push` replaces the
download directory entirely: the file is written at the absolute path
`/x_hu.jpg`, whose components do not contain the download directory at
all - not at a nested path under the download directory. -/
theorem absolute_id_escapes_download_dir :
    ('/' : Char) ∈ ("/x" : String).data ∧
    localPath ⟨false, [['d']]⟩ "/x" = ⟨true, ["x_hu.jpg".data]⟩ ∧
    ['d'] ∉ (localPath ⟨false, [['d']]⟩ "/x").components ∧
    (localPath ⟨false, [['d']]⟩ "/x").absolute = true := by decide

/-- C10 amended: when `img ++ "_hu.jpg"` is not absolute (the id does not
begin with `'/'`), the file is stored under the download directory at the
nested path whose components are the non-empty, non-`"."` slash-split
segments, the recursively created directory is the download directory
extended with every component but the last, and those components are
exactly the segments appended to the URL (which keeps empty and `"."`
segments) after collapsing; when the id begins with `'/'`, the pushed
path replaces the download directory and the file lands at the absolute
path of the id's own segments; an id without `'/'` contributes a single
component, placing the file directly in the download directory (which is
itself the directory created); an id containing `'/'` whose segments are
all real (non-empty, non-`"."`) yields at least two components, i.e. a
nested path. -/
theorem id_slash_segments_nested_path (base : List (List Char)) (dir : FsPath) (img : String) :
    ((imgPath img).data.head? ≠ some '/' →
      localPath dir img = ⟨dir.absolute, dir.components ++ pathComponents (imgPath img).data⟩ ∧
      dirsCreated dir img
        = ⟨dir.absolute, dir.components ++ (pathComponents (imgPath img).data).dropLast⟩ ∧
      (localPath dir img).components.drop dir.components.length
        = ((urlSegments base img).drop base.length).filter
            (fun seg => !(seg.isEmpty) && !(seg == ['.']))) ∧
    ((imgPath img).data.head? = some '/' →
      localPath dir img = ⟨true, pathComponents (imgPath img).data⟩) ∧
    (('/' : Char) ∉ img.data →
      localPath dir img = ⟨dir.absolute, dir.components ++ [(imgPath img).data]⟩ ∧
      dirsCreated dir img = dir) ∧
    (('/' : Char) ∈ img.data →
      (∀ s ∈ splitSlash (imgPath img).data, s ≠ [] ∧ s ≠ ['.']) →
      2 ≤ (pathComponents (imgPath img).data).length) := by
  have hdata : (imgPath img).data = img.data ++ "_hu.jpg".data := by
    simp [imgPath, String.data_append]
  have e7 : ("_hu.jpg" : String).data.length = 7 := by decide
  have hpcne : pathComponents (imgPath img).data ≠ [] := by
    rw [hdata]
    exact pathComponents_append_ne_nil img.data
  refine ⟨?_, ?_, ?_, ?_⟩
  · intro hrel
    have hlp : localPath dir img
        = ⟨dir.absolute, dir.components ++ pathComponents (imgPath img).data⟩ := by
      unfold localPath pathPush
      rw [if_neg hrel]
    refine ⟨hlp, ?_, ?_⟩
    · unfold dirsCreated
      rw [hlp]
      show (⟨dir.absolute,
        (dir.components ++ pathComponents (imgPath img).data).dropLast⟩ : FsPath) = _
      rw [List.dropLast_append_of_ne_nil dir.components hpcne]
    · rw [hlp]
      show (dir.components ++ pathComponents (imgPath img).data).drop dir.components.length
        = ((base ++ splitSlash (imgPath img).data).drop base.length).filter
            (fun seg => !(seg.isEmpty) && !(seg == ['.']))
      rw [List.drop_left, List.drop_left]
      rfl
  · intro habs
    unfold localPath pathPush
    rw [if_pos habs]
  · intro h
    have hnoslash : ('/' : Char) ∉ (imgPath img).data := by
      rw [hdata]
      intro hmem
      rcases List.mem_append.mp hmem with hm | hm
      · exact h hm
      · revert hm; decide
    have hrel : (imgPath img).data.head? ≠ some '/' := by
      intro hh
      cases hd : (imgPath img).data with
      | nil => rw [hd] at hh; exact Option.noConfusion hh
      | cons a l =>
        rw [hd] at hh
        have ha : a = '/' := by injection hh
        apply hnoslash
        rw [hd, ha]
        exact List.mem_cons_self _ _
    have hne : (imgPath img).data ≠ [] := by
      rw [hdata]
      intro hx
      have hl := congrArg List.length hx
      simp only [List.length_append, e7, List.length_nil] at hl
      omega
    have hnd : (imgPath img).data ≠ ['.'] := by
      rw [hdata]
      intro hx
      have hl := congrArg List.length hx
      simp only [List.length_append, e7, List.length_cons, List.length_nil] at hl
      omega
    have hb1 : (imgPath img).data.isEmpty = false := by
      cases hie : (imgPath img).data.isEmpty
      · rfl
      · exact absurd (List.isEmpty_iff.mp hie) hne
    have hb2 : ((imgPath img).data == ['.']) = false := by
      cases hbe : ((imgPath img).data == ['.'])
      · rfl
      · exact absurd (eq_of_beq hbe) hnd
    have hsingle : pathComponents (imgPath img).data = [(imgPath img).data] := by
      unfold pathComponents
      rw [splitSlash_no_slash _ hnoslash]
      simp [List.filter, hb1, hb2]
    have hlp : localPath dir img
        = ⟨dir.absolute, dir.components ++ [(imgPath img).data]⟩ := by
      unfold localPath pathPush
      rw [if_neg hrel, hsingle]
    refine ⟨hlp, ?_⟩
    unfold dirsCreated
    rw [hlp]
    show (⟨dir.absolute, (dir.components ++ [(imgPath img).data]).dropLast⟩ : FsPath) = dir
    rw [List.dropLast_concat]
  · intro h hall
    have hfe : (splitSlash (imgPath img).data).filter
        (fun seg => !(seg.isEmpty) && !(seg == ['.'])) = splitSlash (imgPath img).data := by
      rw [List.filter_eq_self]
      intro a ha
      obtain ⟨h1, h2⟩ := hall a ha
      simp [h1, h2]
    unfold pathComponents
    rw [hfe]
    apply two_le_splitSlash_length
    rw [hdata]
    exact List.mem_append_left _ h

/-- Witness for the amended C10 at the nested id `"2020/01/a"` (relative,
two real segments) and the flat id `"x"`. -/
theorem id_slash_segments_nested_path_witness :
    localPath ⟨false, [['d']]⟩ "2020/01/a"
      = ⟨false, [['d']] ++ pathComponents (imgPath "2020/01/a").data⟩ ∧
    2 ≤ (pathComponents (imgPath "2020/01/a").data).length ∧
    localPath ⟨false, [['d']]⟩ "x" = ⟨false, [['d']] ++ [(imgPath "x").data]⟩ :=
  ⟨((id_slash_segments_nested_path [['w']] ⟨false, [['d']]⟩ "2020/01/a").1 (by decide)).1,
   (id_slash_segments_nested_path [['w']] ⟨false, [['d']]⟩ "2020/01/a").2.2.2
     (by decide) (by decide),
   ((id_slash_segments_nested_path [['w']] ⟨false, [['d']]⟩ "x").2.2.1 (by decide)).1⟩

end Camscrub
